import Mathlib

/-!
Verification of the state conflict-resolution core (`synapse/state.py`).

The Lean definitions below are a shallow embedding of `StateHandler` and its
helpers.  Pure fragments of the Python code become Lean functions; calls out
to the persistence service, the replication layer and the caller-supplied
callbacks are modelled as oracle arguments (their results, including the
possibility of a raised exception, are passed in as `Except`/`Option`
values); Python exceptions become explicit error outcomes.
-/

namespace SynapseState

set_option maxRecDepth 200000

/-- Modelled from the spec: the PDU record (spec §3).  The PDU class itself
is not part of this source file (it lives in the federation units module);
the fields are the ones `state.py` reads: `pdu_id`, `origin`,
`power_level`, `depth`, `prev_state_id`, `prev_state_origin`, and the
slot-identity fields `context`, `pdu_type`, `state_key`.  PDUs are compared
structurally. -/
structure PDU where
  pdu_id : String
  origin : String
  context : String
  pdu_type : String
  state_key : String
  depth : Nat
  power_level : Int
  prev_state_id : Option String
  prev_state_origin : Option String
  deriving DecidableEq, Repr

/-- A branch: ancestry chain of PDUs, newest first (spec §3). -/
abbrev Branch := List PDU

/-- The pair returned by `get_unresolved_state_tree`: (new_branch,
current_branch). -/
abbrev StateTree := Branch × Branch

/-! ### The three tiebreak comparators -/

/-- `_do_power_level_conflict_res`, one side: Python
`max(branch[:-1], key=lambda t: t.power_level).power_level`.
Python's `max` raises `ValueError` on an empty sequence, modelled as
`none`. -/
def maxPowerLevel (branch : Branch) : Option Int :=
  match (branch.dropLast).map (fun t => t.power_level) with
  | [] => none
  | x :: xs => some (xs.foldl max x)

/-! #### SHA-1 (`hashlib.sha1`), over the byte string of the branch's
concatenated `pdu_id + origin` fields.  Machine words are `Nat` reduced
modulo `2^32`. -/

/-- Truncate to a 32-bit word. -/
def w32 (n : Nat) : Nat := n % 4294967296

/-- Left-rotate a 32-bit word by `b` bits. -/
def rotl (b n : Nat) : Nat := w32 (n <<< b) ||| (n >>> (32 - b))

/-- xor of four 32-bit words. -/
def xor4 (a b c d : Nat) : Nat := ((a ^^^ b) ^^^ c) ^^^ d

/-- The SHA-1 message schedule: extend 16 words to 80. -/
def sha1Schedule (ws : List Nat) : List Nat :=
  (List.range 64).foldl
    (fun acc _ =>
      let n := acc.length
      acc ++ [rotl 1 (xor4 (acc.getD (n - 3) 0) (acc.getD (n - 8) 0)
        (acc.getD (n - 14) 0) (acc.getD (n - 16) 0))])
    ws

/-- Process one 64-byte chunk: `h` is the running 5-word state. -/
def sha1Chunk (h : List Nat) (chunk : List Nat) : List Nat :=
  let words16 := (List.range 16).map (fun i =>
    (((chunk.getD (4 * i) 0) <<< 24) ||| ((chunk.getD (4 * i + 1) 0) <<< 16))
      ||| (((chunk.getD (4 * i + 2) 0) <<< 8) ||| (chunk.getD (4 * i + 3) 0)))
  let ws := sha1Schedule words16
  let h0 := h.getD 0 0
  let h1 := h.getD 1 0
  let h2 := h.getD 2 0
  let h3 := h.getD 3 0
  let h4 := h.getD 4 0
  let fin := (List.range 80).foldl
    (fun st i =>
      let (a, b, c, d, e) := st
      let f :=
        if i < 20 then (b &&& c) ||| ((4294967295 - b) &&& d)
        else if i < 40 then (b ^^^ c) ^^^ d
        else if i < 60 then ((b &&& c) ||| (b &&& d)) ||| (c &&& d)
        else (b ^^^ c) ^^^ d
      let k :=
        if i < 20 then 1518500249
        else if i < 40 then 1859775393
        else if i < 60 then 2400959708
        else 3395469782
      let tmp := w32 (rotl 5 a + f + e + k + ws.getD i 0)
      (tmp, a, rotl 30 b, c, d))
    (h0, h1, h2, h3, h4)
  let (a, b, c, d, e) := fin
  [w32 (h0 + a), w32 (h1 + b), w32 (h2 + c), w32 (h3 + d), w32 (h4 + e)]

/-- SHA-1 padding of a byte list, to a multiple of 64 bytes. -/
def sha1Pad (msg : List Nat) : List Nat :=
  let len := msg.length
  let zeros := (120 - (len + 1) % 64) % 64
  let bits := 8 * len
  msg ++ [128] ++ List.replicate zeros 0
    ++ (List.range 8).map (fun i => (bits >>> (8 * (7 - i))) % 256)

/-- The lowercase hex character for a nibble: digits start at code
point 48, letters at 97. -/
def hexChar (n : Nat) : Char :=
  Char.ofNat (if n < 10 then 48 + n else 87 + n)

/-- Hex rendering of one 32-bit word (8 characters, big-endian). -/
def wordHex (w : Nat) : List Char :=
  (List.range 8).map (fun i => hexChar ((w >>> (4 * (7 - i))) % 16))

/-- `hashlib.sha1(s).hexdigest()` for an ASCII byte string `s`. -/
def sha1Hex (s : String) : String :=
  let msg := s.data.map Char.toNat
  let padded := sha1Pad msg
  let nChunks := padded.length / 64
  let hFinal := (List.range nChunks).foldl
    (fun h i => sha1Chunk h ((padded.drop (64 * i)).take 64))
    [1732584193, 4023233417, 2562383102, 271733878, 3285377520]
  String.mk (hFinal.foldr (fun w acc => wordHex w ++ acc) [])

/-- The byte string `"".join([p.pdu_id + p.origin for p in branch])`. -/
def branchStr (branch : Branch) : String :=
  branch.foldr (fun p acc => p.pdu_id ++ p.origin ++ acc) ""

/-- `_do_hash_conflict_res`, one side: the SHA-1 hexdigest of the branch's
concatenated `pdu_id + origin` string. -/
def hashRes (branch : Branch) : String := sha1Hex (branchStr branch)

/-- `_do_power_level_conflict_res(new_branch, current_branch)`: the pair of
maximal power levels over each branch excluding its last element (`none`
models the `ValueError` Python's `max` raises on an empty sequence). -/
def do_power_level_conflict_res (new_branch current_branch : Branch) :
    Option Int × Option Int :=
  (maxPowerLevel new_branch, maxPowerLevel current_branch)

/-- `_do_chain_length_conflict_res(new_branch, current_branch)`:
`(len(new_branch), len(current_branch))`. -/
def do_chain_length_conflict_res (new_branch current_branch : Branch) :
    Nat × Nat :=
  (new_branch.length, current_branch.length)

/-- `_do_hash_conflict_res(new_branch, current_branch)`: the pair of SHA-1
hexdigests. -/
def do_hash_conflict_res (new_branch current_branch : Branch) :
    String × String :=
  (hashRes new_branch, hashRes current_branch)

/-- Lexicographic comparison of character lists by code point. -/
def charListLt : List Char → List Char → Bool
  | [], [] => false
  | [], _ :: _ => true
  | _ :: _, [] => false
  | a :: as, b :: bs =>
    if a.toNat < b.toNat then true
    else if b.toNat < a.toNat then false
    else charListLt as bs

/-- Python's `<` on byte strings: lexicographic comparison by code
point (first differing character decides; a strict prefix is smaller). -/
def pyStrLt (a b : String) : Bool := charListLt a.data b.data

/-! ### The resolver (`_handle_new_state`) -/

/-- Terminal outcome of one resolution. -/
inductive ResOutcome where
  /-- `defer.returnValue(winner)` -/
  | decided (winner : Bool)
  /-- `raise Exception("Conflict resolution failed.")` -/
  | conflictResFailed
  /-- `ValueError` raised by `max()` over an empty `branch[:-1]` in
  `_do_power_level_conflict_res` -/
  | emptyBranchError
  /-- `IndexError` raised by `new_branch[-1]` on an empty branch -/
  | missingPduError
  /-- the replication `get_pdu` call raised -/
  | fetchFailed
  deriving DecidableEq, Repr

/-- The arguments of a `self._replication.get_pdu(...)` call. -/
structure FetchReq where
  destination : String
  pdu_origin : Option String
  pdu_id : Option String
  outlier : Bool
  deriving DecidableEq, Repr

/-- What one pass over `_handle_new_state`'s body does before either
returning or recursing: a terminal outcome, or a replication fetch
followed by the recursive call. -/
inductive StepResult where
  | done (o : ResOutcome)
  | fetch (req : FetchReq)
  deriving DecidableEq, Repr

/-- One pass over the body of `_handle_new_state`, applied to the tree
returned by `get_unresolved_state_tree`.  Mirrors the source line by
line: empty current branch wins immediately; equal oldest elements run
the three-comparator loop (current branch of length 1 short-circuits to a
win); differing oldest elements pick the deeper of the two oldest
elements (Python's two-argument `max` keeps the first argument on ties,
i.e. the current branch's element is chosen only when strictly deeper)
and issue the fetch for its recorded predecessor. -/
def handle_new_state_step (tree : StateTree) : StepResult :=
  let (new_branch, current_branch) := tree
  if current_branch.isEmpty then .done (.decided true)
  else
    match new_branch.getLast?, current_branch.getLast? with
    | none, _ => .done .missingPduError
    | _, none => .done .missingPduError
    | some nl, some cl =>
      if nl = cl then
        if current_branch.length = 1 then .done (.decided true)
        else
          match do_power_level_conflict_res new_branch current_branch with
          | (some pNew, some pCurr) =>
            if pNew < pCurr then .done (.decided false)
            else if pCurr < pNew then .done (.decided true)
            else if new_branch.length < current_branch.length then
              .done (.decided false)
            else if current_branch.length < new_branch.length then
              .done (.decided true)
            else
              let h := do_hash_conflict_res new_branch current_branch
              if pyStrLt h.1 h.2 then .done (.decided false)
              else if pyStrLt h.2 h.1 then .done (.decided true)
              else .done .conflictResFailed
          | _ => .done .emptyBranchError
      else
        let missing_prev := if cl.depth > nl.depth then cl else nl
        .fetch
          { destination := missing_prev.origin
            pdu_origin := missing_prev.prev_state_origin
            pdu_id := missing_prev.prev_state_id
            outlier := true }

/-- External calls the handlers make (shared effect language for the
frame claims). -/
inductive Effect where
  /-- `self._replication.get_pdu(...)` -/
  | fetchPdu (req : FetchReq)
  /-- `persistence.update_current_state(pdu_id, origin, context, pdu_type,
  state_key)` -/
  | updateCurrentState (pdu_id origin context pdu_type state_key : String)
  /-- the caller-supplied callback was invoked -/
  | invokeCallback
  deriving DecidableEq, Repr

/-- The recursion of `_handle_new_state`, driven by two oracles: `trees k`
is what `get_unresolved_state_tree` returns on the `k`-th pass (the tree
may change between passes because fetched PDUs are persisted), and
`fetches k` tells whether the `k`-th replication fetch succeeds or
raises.  `fuel` bounds the recursion depth of the model (the source
recursion is unbounded); `none` means the recursion did not finish within
`fuel` passes.  Also records the trace of replication fetches issued. -/
def handle_new_state_run (trees : Nat → StateTree)
    (fetches : Nat → Except Unit Unit) (k fuel : Nat) :
    Option ResOutcome × List Effect :=
  match fuel with
  | 0 => (none, [])
  | f + 1 =>
    match handle_new_state_step (trees k) with
    | .done o => (some o, [])
    | .fetch req =>
      match fetches k with
      | .error _ => (some .fetchFailed, [.fetchPdu req])
      | .ok _ =>
        let rest := handle_new_state_run trees fetches (k + 1) f
        (rest.1, .fetchPdu req :: rest.2)

/-! ### `handle_new_state` (the public wrapper) -/

/-- What a call to `handle_new_state` did. -/
structure HNSResult where
  /-- the value returned by `defer.returnValue(is_new)`, or the exception
  that propagated out of the `try` block -/
  result : Except Unit Bool
  /-- whether `new_state_callback` was invoked -/
  callbackInvoked : Bool
  /-- whether `new_deferred.callback(None)` in the `finally` block ran -/
  lockReleased : Bool
  deriving Repr

/-- The body of `handle_new_state` around the `_handle_new_state` call:
`resolver` is the outcome of `yield self._handle_new_state(new_pdu)`
(value or exception), `hasCallback` whether a `new_state_callback` was
passed, `cbResult` what the callback does if invoked.  The `finally`
block completes the lock deferred on every path. -/
def handle_new_state (resolver : Except Unit Bool) (hasCallback : Bool)
    (cbResult : Except Unit Unit) : HNSResult :=
  match resolver with
  | .error e => ⟨.error e, false, true⟩
  | .ok is_new =>
    if is_new && hasCallback then
      match cbResult with
      | .error e => ⟨.error e, true, true⟩
      | .ok _ => ⟨.ok is_new, true, true⟩
    else ⟨.ok is_new, false, true⟩

/-! ### `handle_new_event` -/

/-- The persistence service's CurrentState record (spec §3). -/
structure CurrentState where
  pdu_id : String
  origin : String
  deriving DecidableEq, Repr

/-- A locally authored event draft, with the fields `handle_new_event`
reads and writes. -/
structure Event where
  event_id : String
  room_id : String
  type : String
  state_key : String
  prev_events : List String
  depth : Nat
  prev_state_id : Option String
  prev_state_origin : Option String
  deriving DecidableEq, Repr

/-- What a call to `handle_new_event` did. -/
structure HNEResult where
  result : Except Unit Unit
  /-- whether `new_deferred.callback(None)` in the `finally` block ran -/
  lockReleased : Bool
  /-- the callback invocation and `update_current_state` calls issued -/
  effects : List Effect
  /-- the event draft with the mutations applied so far -/
  event : Event
  deriving Repr

/-- The body of `handle_new_event`.  The source refers to the persistence
service through the aliases `self.service` and `self.persistence` (both
stand for the `self._persistence` collaborator) and to the local server's
name as `self.server_name` (modelled as the `serverName` argument).
Oracles: `latest` is `get_latest_pdus_in_context` (list of
`(pdu_id, origin, depth)`), `currentState` is `get_current_state`
(`none` models Python's `None`, whose `.pdu_id` access raises
`AttributeError`), `cbResult` the admission callback's outcome,
`updResult` the `update_current_state` outcome. -/
def handle_new_event (serverName : String)
    (latest : Except Unit (List (String × String × Nat)))
    (currentState : Except Unit (Option CurrentState))
    (cbResult : Except Unit Unit) (updResult : Except Unit Unit)
    (event : Event) : HNEResult :=
  match latest with
  | .error e => ⟨.error e, true, [], event⟩
  | .ok results =>
    let ev1 := { event with
      prev_events := results.map (fun r => r.1 ++ "@" ++ r.2.1)
      depth := match results.map (fun r => r.2.2) with
        | [] => 0
        | d :: ds => ds.foldl max d + 1 }
    match currentState with
    | .error e => ⟨.error e, true, [], ev1⟩
    | .ok none => ⟨.error (), true, [], ev1⟩
    | .ok (some cs) =>
      let ev2 := { ev1 with
        prev_state_id := some cs.pdu_id
        prev_state_origin := some cs.origin }
      match cbResult with
      | .error e => ⟨.error e, true, [.invokeCallback], ev2⟩
      | .ok _ =>
        let upd := Effect.updateCurrentState ev2.event_id serverName
          ev2.room_id ev2.type ev2.state_key
        match updResult with
        | .error e => ⟨.error e, true, [.invokeCallback, upd], ev2⟩
        | .ok _ => ⟨.ok (), true, [.invokeCallback, upd], ev2⟩

/-! ### Claim-side definitions and run helpers -/

/-- Following the spec's words (§4.5): the verdict of the first comparator
(in the order power level, chain length, content hash) that produces an
unequal pair — `some true` when the new branch's score is strictly
greater, `some false` when strictly smaller, `none` when all three pairs
are equal (or when the power comparator produces no pair at all). -/
def firstUnequalVerdict (new_branch current_branch : Branch) : Option Bool :=
  match do_power_level_conflict_res new_branch current_branch with
  | (some pNew, some pCurr) =>
    if pNew ≠ pCurr then some (decide (pCurr < pNew))
    else
      let l := do_chain_length_conflict_res new_branch current_branch
      if l.1 ≠ l.2 then some (decide (l.2 < l.1))
      else
        let h := do_hash_conflict_res new_branch current_branch
        if h.1 ≠ h.2 then some (pyStrLt h.2 h.1) else none
  | _ => none

/-- Whether one pass of `_handle_new_state` on this tree recurses through
a replication fetch (the divergent-branches case). -/
def isFetchStep (tree : StateTree) : Bool :=
  match handle_new_state_step tree with
  | .fetch _ => true
  | .done _ => false

/-- The terminal outcome of one pass, when it has one. -/
def doneOutcome (tree : StateTree) : Option ResOutcome :=
  match handle_new_state_step tree with
  | .done o => some o
  | .fetch _ => none

/-- Combined length of the two branches of a tree. -/
def treeSize (tree : StateTree) : Nat := tree.1.length + tree.2.length

/-! ### Concrete sample PDUs (used by witnesses and counterexamples) -/

/-- A shared ancestor PDU. -/
def pduT : PDU := ⟨"t", "s", "r", "ty", "k", 1, 5, none, none⟩

/-- `pdu_id = "ab"`, `origin = "c"`: concatenates to `"abc"`. -/
def pduAB : PDU := ⟨"ab", "c", "r", "ty", "k", 2, 5, none, none⟩

/-- `pdu_id = "a"`, `origin = "bc"`: also concatenates to `"abc"`,
although the PDU differs from `pduAB`. -/
def pduA_BC : PDU := ⟨"a", "bc", "r", "ty", "k", 2, 5, none, none⟩

/-- A tip PDU with distinct id from `pduP2` (distinct hashes). -/
def pduP1 : PDU := ⟨"p1", "s1", "r", "ty", "k", 2, 5, none, none⟩

/-- A tip PDU with distinct id from `pduP1` (distinct hashes). -/
def pduP2 : PDU := ⟨"p2", "s2", "r", "ty", "k", 2, 5, none, none⟩

/-- A high-power tip (power level 20). -/
def pduHi : PDU := ⟨"q1", "s1", "r", "ty", "k", 3, 20, none, none⟩

/-- A mid chain element (power level 5). -/
def pduMid : PDU := ⟨"q2", "s2", "r", "ty", "k", 2, 5, none, none⟩

/-- A low-power tip (power level 10). -/
def pduLo : PDU := ⟨"q3", "s3", "r", "ty", "k", 2, 10, none, none⟩

/-- Oldest fetched element of a new branch, depth 3, with recorded
predecessor `("np", "npo")`. -/
def pduNewOld : PDU := ⟨"n", "sn", "r", "ty", "k", 3, 5, some "np", some "npo"⟩

/-- Oldest fetched element of a current branch, depth 7, with recorded
predecessor `("cp", "cpo")`. -/
def pduCurOld : PDU := ⟨"c", "sc", "r", "ty", "k", 7, 5, some "cp", some "cpo"⟩

/-! ### Helper lemmas -/

theorem charListLt_irrefl : ∀ xs : List Char, charListLt xs xs = false
  | [] => rfl
  | a :: as => by
    simp [charListLt, Nat.lt_irrefl, charListLt_irrefl as]

theorem charListLt_asymm : ∀ xs ys : List Char,
    charListLt xs ys = true → charListLt ys xs = false
  | [], [] => by simp [charListLt]
  | [], _ :: _ => fun _ => rfl
  | _ :: _, [] => by simp [charListLt]
  | a :: as, b :: bs => by
    by_cases hab : a.toNat < b.toNat
    · intro _
      have hba : ¬ b.toNat < a.toNat := Nat.lt_asymm hab
      simp [charListLt, hab, hba]
    · by_cases hba : b.toNat < a.toNat
      · simp [charListLt, hab, hba]
      · intro h
        have h' : charListLt as bs = true := by
          simpa [charListLt, hab, hba] using h
        simp [charListLt, hab, hba, charListLt_asymm as bs h']

theorem charListLt_eq_of_false : ∀ xs ys : List Char,
    charListLt xs ys = false → charListLt ys xs = false → xs = ys
  | [], [] => fun _ _ => rfl
  | [], _ :: _ => by simp [charListLt]
  | _ :: _, [] => by simp [charListLt]
  | a :: as, b :: bs => by
    intro h1 h2
    by_cases hab : a.toNat < b.toNat
    · simp [charListLt, hab] at h1
    · by_cases hba : b.toNat < a.toNat
      · simp [charListLt, hba] at h2
      · have hv : a = b := by
          have : a.toNat = b.toNat := Nat.le_antisymm
            (Nat.le_of_not_lt hba) (Nat.le_of_not_lt hab)
          have := congrArg Char.ofNat this
          rwa [Char.ofNat_toNat, Char.ofNat_toNat] at this
        have h1' : charListLt as bs = false := by
          simpa [charListLt, hab, hba] using h1
        have h2' : charListLt bs as = false := by
          simpa [charListLt, hab, hba] using h2
        rw [hv, charListLt_eq_of_false as bs h1' h2']

theorem pyStrLt_irrefl (a : String) : pyStrLt a a = false :=
  charListLt_irrefl a.data

theorem pyStrLt_asymm {a b : String} (h : pyStrLt a b = true) :
    pyStrLt b a = false :=
  charListLt_asymm a.data b.data h

theorem pyStrLt_eq_of_false {a b : String} (h1 : pyStrLt a b = false)
    (h2 : pyStrLt b a = false) : a = b := by
  have hd : a.data = b.data := charListLt_eq_of_false a.data b.data h1 h2
  cases a; cases b; exact congrArg String.mk hd

theorem maxPowerLevel_isSome {b : Branch} (h : 2 ≤ b.length) :
    ∃ p, maxPowerLevel b = some p := by
  rcases hb : (b.dropLast).map (fun t => t.power_level) with _ | ⟨x, xs⟩
  · exfalso
    have hlen := congrArg List.length hb
    simp [List.length_dropLast] at hlen
    omega
  · exact ⟨xs.foldl max x, by rw [maxPowerLevel, hb]⟩

theorem ne_nil_of_getLast? {l : Branch} {a : PDU}
    (h : l.getLast? = some a) : l ≠ [] := by
  intro he
  rw [he] at h
  simp at h

theorem isEmpty_false_of_getLast? {l : Branch} {a : PDU}
    (h : l.getLast? = some a) : l.isEmpty = false := by
  cases l with
  | nil => simp at h
  | cons x xs => rfl

/-- Characterization of the convergent tiebreak path: when the two
branches share their oldest element and both have at least two
elements, one pass of `_handle_new_state` returns the verdict of the
first comparator producing an unequal pair, and raises the final
exception exactly when all pairs are equal. -/
theorem step_tiebreak_eq (nb cb : Branch) (t : PDU)
    (hn : nb.getLast? = some t) (hc : cb.getLast? = some t)
    (hln : 2 ≤ nb.length) (hlc : 2 ≤ cb.length) :
    handle_new_state_step (nb, cb) =
      (match firstUnequalVerdict nb cb with
       | some w => .done (.decided w)
       | none => .done .conflictResFailed) := by
  obtain ⟨pN, hpN⟩ := maxPowerLevel_isSome hln
  obtain ⟨pC, hpC⟩ := maxPowerLevel_isSome hlc
  have hcbE : cb.isEmpty = false := isEmpty_false_of_getLast? hc
  have hcb1 : cb.length ≠ 1 := by omega
  have hfu : firstUnequalVerdict nb cb =
      (if pN ≠ pC then some (decide (pC < pN))
       else if nb.length ≠ cb.length then some (decide (cb.length < nb.length))
       else if hashRes nb ≠ hashRes cb
         then some (pyStrLt (hashRes cb) (hashRes nb)) else none) := by
    simp [firstUnequalVerdict, do_power_level_conflict_res,
      do_chain_length_conflict_res, do_hash_conflict_res, hpN, hpC]
  simp only [handle_new_state_step, do_power_level_conflict_res,
    do_hash_conflict_res, hn, hc, hpN, hpC, hcbE, Bool.false_eq_true,
    if_false]
  rw [if_pos trivial, if_neg hcb1, hfu]
  by_cases hpe : pN = pC
  · subst hpe
    conv_rhs => rw [if_neg (fun hx => hx rfl)]
    by_cases hle : nb.length = cb.length
    · conv_rhs => rw [if_neg (fun hx => hx hle)]
      by_cases hhe : hashRes nb = hashRes cb
      · conv_rhs => rw [if_neg (fun hx => hx hhe)]
        simp [hle, hhe, pyStrLt_irrefl]
      · conv_rhs => rw [if_pos hhe]
        show _ = StepResult.done
          (ResOutcome.decided (pyStrLt (hashRes cb) (hashRes nb)))
        rcases Bool.eq_false_or_eq_true
            (pyStrLt (hashRes nb) (hashRes cb)) with hb1 | hb1
        · simp only [pyStrLt_asymm hb1]
          simp [hle, hb1]
        · rcases Bool.eq_false_or_eq_true
              (pyStrLt (hashRes cb) (hashRes nb)) with hb2 | hb2
          · simp only [hb2]
            simp [hle, hb1]
          · exact absurd (pyStrLt_eq_of_false hb2 hb1).symm hhe
    · conv_rhs => rw [if_pos hle]
      show _ = StepResult.done
        (ResOutcome.decided (decide (cb.length < nb.length)))
      by_cases h3 : nb.length < cb.length
      · rw [decide_eq_false (Nat.lt_asymm h3)]
        simp [h3]
      · have h4 : cb.length < nb.length := by omega
        rw [decide_eq_true h4]
        simp [h3, h4]
  · conv_rhs => rw [if_pos hpe]
    show _ = StepResult.done (ResOutcome.decided (decide (pC < pN)))
    by_cases h1 : pN < pC
    · rw [decide_eq_false (lt_asymm h1)]
      simp [h1]
    · have h2 : pC < pN := by omega
      rw [decide_eq_true h2]
      simp [h1, h2]

/-- A pass that recurses has two nonempty branches. -/
theorem fetchStep_branches_ne_nil {nb cb : Branch}
    (h : isFetchStep (nb, cb) = true) : nb ≠ [] ∧ cb ≠ [] := by
  constructor
  · intro he
    subst he
    cases cb with
    | nil => simp [isFetchStep, handle_new_state_step] at h
    | cons c cs => simp [isFetchStep, handle_new_state_step] at h
  · intro he
    subst he
    simp [isFetchStep, handle_new_state_step] at h

/-- A pass that recurses sees a tree of combined size at least 2. -/
theorem fetchStep_size {t : StateTree} (h : isFetchStep t = true) :
    2 ≤ treeSize t := by
  obtain ⟨nb, cb⟩ := t
  obtain ⟨h1, h2⟩ := fetchStep_branches_ne_nil h
  have l1 : 0 < nb.length := List.length_pos.mpr h1
  have l2 : 0 < cb.length := List.length_pos.mpr h2
  simp only [treeSize]
  omega

/-- One-step unfolding of the run: a terminal pass. -/
theorem run_step_done (trees : Nat → StateTree)
    (fetches : Nat → Except Unit Unit) {o : ResOutcome} (k f : Nat)
    (hs : handle_new_state_step (trees k) = .done o) :
    handle_new_state_run trees fetches k (f + 1) = (some o, []) := by
  have hu : handle_new_state_run trees fetches k (f + 1) =
      (match handle_new_state_step (trees k) with
       | .done o => (some o, [])
       | .fetch req =>
         match fetches k with
         | .error _ => (some .fetchFailed, [.fetchPdu req])
         | .ok _ =>
           ((handle_new_state_run trees fetches (k + 1) f).1,
             .fetchPdu req ::
               (handle_new_state_run trees fetches (k + 1) f).2)) := rfl
  rw [hu, hs]

/-- One-step unfolding of the run: a successful fetch pass. -/
theorem run_step_fetch (trees : Nat → StateTree)
    (fetches : Nat → Except Unit Unit) {req : FetchReq} (k f : Nat)
    (hs : handle_new_state_step (trees k) = .fetch req)
    (hk : fetches k = .ok ()) :
    handle_new_state_run trees fetches k (f + 1) =
      ((handle_new_state_run trees fetches (k + 1) f).1,
        .fetchPdu req :: (handle_new_state_run trees fetches (k + 1) f).2) := by
  have hu : handle_new_state_run trees fetches k (f + 1) =
      (match handle_new_state_step (trees k) with
       | .done o => (some o, [])
       | .fetch req =>
         match fetches k with
         | .error _ => (some .fetchFailed, [.fetchPdu req])
         | .ok _ =>
           ((handle_new_state_run trees fetches (k + 1) f).1,
             .fetchPdu req ::
               (handle_new_state_run trees fetches (k + 1) f).2)) := rfl
  rw [hu, hs, hk]

/-- After `N` fetch rounds that all succeed, the run's outcome is the
terminal outcome of pass `N`, and exactly `N` fetches were issued. -/
theorem run_done_at (trees : Nat → StateTree)
    (fetches : Nat → Except Unit Unit) :
    ∀ N k, (∀ i, i < N → isFetchStep (trees (k + i)) = true) →
      (∀ i, i < N → fetches (k + i) = .ok ()) →
      isFetchStep (trees (k + N)) = false →
      (handle_new_state_run trees fetches k (N + 1)).1 =
          doneOutcome (trees (k + N)) ∧
        (handle_new_state_run trees fetches k (N + 1)).2.length = N := by
  intro N
  induction N with
  | zero =>
    intro k _ _ hdone
    cases hs : handle_new_state_step (trees k) with
    | done o => simp [run_step_done trees fetches k 0 hs, doneOutcome, hs]
    | fetch r =>
      rw [show k + 0 = k from rfl] at hdone
      rw [isFetchStep, hs] at hdone
      cases hdone
  | succ n ih =>
    intro k hsteps hok hdone
    have h0 : isFetchStep (trees k) = true := by
      have := hsteps 0 (by omega)
      simpa using this
    rw [isFetchStep] at h0
    cases hs : handle_new_state_step (trees k) with
    | done o => rw [hs] at h0; cases h0
    | fetch req =>
      have hk : fetches k = .ok () := by
        have := hok 0 (by omega)
        simpa using this
      have hsteps' : ∀ i, i < n → isFetchStep (trees (k + 1 + i)) = true := by
        intro i hi
        have := hsteps (i + 1) (by omega)
        rwa [show k + (i + 1) = k + 1 + i by omega] at this
      have hok' : ∀ i, i < n → fetches (k + 1 + i) = .ok () := by
        intro i hi
        have := hok (i + 1) (by omega)
        rwa [show k + (i + 1) = k + 1 + i by omega] at this
      have hdone' : isFetchStep (trees (k + 1 + n)) = false := by
        rwa [show k + (n + 1) = k + 1 + n by omega] at hdone
      obtain ⟨ih1, ih2⟩ := ih (k + 1) hsteps' hok' hdone'
      rw [show k + (n + 1) = k + 1 + n by omega]
      rw [run_step_fetch trees fetches k (n + 1) hs hk]
      simp [ih1, ih2]

/-- If some pass within the fuel bound is terminal (and all fetches
succeed), the run produces an outcome. -/
theorem run_isSome_of_done (trees : Nat → StateTree)
    (fetches : Nat → Except Unit Unit)
    (hfetch : ∀ k, fetches k = .ok ()) :
    ∀ F k, (∃ i, i < F ∧ isFetchStep (trees (k + i)) = false) →
      ((handle_new_state_run trees fetches k F).1).isSome = true := by
  intro F
  induction F with
  | zero =>
    intro k ⟨i, hi, _⟩
    omega
  | succ f ih =>
    intro k ⟨i, hi, hdone⟩
    cases hs : handle_new_state_step (trees k) with
    | done o => simp [run_step_done trees fetches k f hs]
    | fetch req =>
      have hi0 : i ≠ 0 := by
        intro h0
        subst h0
        rw [show k + 0 = k from rfl, isFetchStep, hs] at hdone
        cases hdone
      rw [run_step_fetch trees fetches k f hs (hfetch k)]
      exact ih (k + 1) ⟨i - 1, by omega,
        by rwa [show k + 1 + (i - 1) = k + i by omega]⟩

/-- One-step unfolding of the run: a fetch pass whose replication call
raises. -/
theorem run_step_fetch_err (trees : Nat → StateTree)
    (fetches : Nat → Except Unit Unit) {req : FetchReq} {er : Unit}
    (k f : Nat) (hs : handle_new_state_step (trees k) = .fetch req)
    (hk : fetches k = .error er) :
    handle_new_state_run trees fetches k (f + 1) =
      (some .fetchFailed, [.fetchPdu req]) := by
  have hu : handle_new_state_run trees fetches k (f + 1) =
      (match handle_new_state_step (trees k) with
       | .done o => (some o, [])
       | .fetch req =>
         match fetches k with
         | .error _ => (some .fetchFailed, [.fetchPdu req])
         | .ok _ =>
           ((handle_new_state_run trees fetches (k + 1) f).1,
             .fetchPdu req ::
               (handle_new_state_run trees fetches (k + 1) f).2)) := rfl
  rw [hu, hs, hk]

/-- A pass that does not recurse has a terminal outcome. -/
theorem doneOutcome_isSome {t : StateTree} (h : isFetchStep t = false) :
    (doneOutcome t).isSome = true := by
  rw [isFetchStep] at h
  rw [doneOutcome]
  cases hs : handle_new_state_step t with
  | done o => rfl
  | fetch req => rw [hs] at h; cases h

/-! ### The claims -/

/-- C6: for every slot with no current state (persistence returns an
empty current branch), any PDU submitted to `handle_new_state` wins: the
resolver returns True unconditionally, without running any tiebreak (the
comparators are never consulted — the result holds for every new
branch). -/
theorem c6_first_writer_wins :
    (∀ nb : Branch, handle_new_state_step (nb, []) = .done (.decided true)) ∧
    (∀ (trees : Nat → StateTree) (fetches : Nat → Except Unit Unit)
        (k fuel : Nat), (trees k).2 = [] →
      handle_new_state_run trees fetches k (fuel + 1) =
        (some (.decided true), [])) := by
  constructor
  · intro nb
    rfl
  · intro trees fetches k fuel h
    have hs : handle_new_state_step (trees k) = .done (.decided true) := by
      have he : trees k = ((trees k).1, ([] : Branch)) := by rw [← h]
      rw [he]
      rfl
    exact run_step_done trees fetches k fuel hs

/-- Witness for C6 at a concrete tree with an empty current branch. -/
theorem c6_first_writer_wins_witness :
    handle_new_state_run (fun _ => ([pduP1], ([] : Branch)))
      (fun _ => .ok ()) 0 1 = (some (.decided true), []) :=
  c6_first_writer_wins.2 (fun _ => ([pduP1], [])) (fun _ => .ok ()) 0 0 rfl

/-- C7: when the branch walk converges and the current branch has length
exactly 1 (the current state is itself the common ancestor), the
resolver returns True without invoking any of the three comparators. -/
theorem c7_direct_descendant_clobber (nb : Branch) (c : PDU)
    (hn : nb.getLast? = some c) :
    handle_new_state_step (nb, [c]) = .done (.decided true) := by
  simp [handle_new_state_step, hn]

/-- Witness for C7 at a concrete two-element new branch over a
single-element current branch. -/
theorem c7_direct_descendant_clobber_witness :
    handle_new_state_step ([pduP1, pduT], [pduT]) = .done (.decided true) :=
  c7_direct_descendant_clobber [pduP1, pduT] pduT (by decide)

/-- C3: when the two branches' oldest fetched elements differ, the pass
selects among them the one with the greater depth (Python's two-argument
`max` keeps the new branch's element on ties), issues exactly one
replication fetch for that element's recorded
`prev_state_id`/`prev_state_origin` with the element's own `origin` as
destination and `outlier = true`, and the run then re-enters the whole
resolution against the next tree persistence returns. -/
theorem c3_divergent_fetch (nb cb : Branch) (nl cl : PDU)
    (hn : nb.getLast? = some nl) (hc : cb.getLast? = some cl)
    (hne : nl ≠ cl) :
    handle_new_state_step (nb, cb) =
        .fetch ⟨(if cl.depth > nl.depth then cl else nl).origin,
          (if cl.depth > nl.depth then cl else nl).prev_state_origin,
          (if cl.depth > nl.depth then cl else nl).prev_state_id, true⟩ ∧
      (cl.depth < nl.depth → (if cl.depth > nl.depth then cl else nl) = nl) ∧
      (nl.depth < cl.depth → (if cl.depth > nl.depth then cl else nl) = cl) ∧
      (∀ (trees : Nat → StateTree) (fetches : Nat → Except Unit Unit)
          (fuel : Nat), trees 0 = (nb, cb) → fetches 0 = .ok () →
        handle_new_state_run trees fetches 0 (fuel + 1) =
          ((handle_new_state_run trees fetches 1 fuel).1,
            .fetchPdu ⟨(if cl.depth > nl.depth then cl else nl).origin,
              (if cl.depth > nl.depth then cl else nl).prev_state_origin,
              (if cl.depth > nl.depth then cl else nl).prev_state_id, true⟩ ::
              (handle_new_state_run trees fetches 1 fuel).2)) := by
  have hcbE : cb.isEmpty = false := isEmpty_false_of_getLast? hc
  have hstep : handle_new_state_step (nb, cb) =
      .fetch ⟨(if cl.depth > nl.depth then cl else nl).origin,
        (if cl.depth > nl.depth then cl else nl).prev_state_origin,
        (if cl.depth > nl.depth then cl else nl).prev_state_id, true⟩ := by
    simp [handle_new_state_step, hn, hc, hne, hcbE]
  refine ⟨hstep, ?_, ?_, ?_⟩
  · intro hd
    rw [if_neg (Nat.lt_asymm hd)]
  · intro hd
    rw [if_pos hd]
  · intro trees fetches fuel ht hf
    exact run_step_fetch trees fetches 0 fuel (by rw [ht]; exact hstep) hf

/-- Witness for C3 at a concrete divergent tree (depths 3 and 7). -/
theorem c3_divergent_fetch_witness :
    handle_new_state_step ([pduNewOld], [pduCurOld]) =
      .fetch ⟨(if pduCurOld.depth > pduNewOld.depth
          then pduCurOld else pduNewOld).origin,
        (if pduCurOld.depth > pduNewOld.depth
          then pduCurOld else pduNewOld).prev_state_origin,
        (if pduCurOld.depth > pduNewOld.depth
          then pduCurOld else pduNewOld).prev_state_id, true⟩ :=
  (c3_divergent_fetch [pduNewOld] [pduCurOld] pduNewOld pduCurOld
    rfl rfl (by decide)).1

/-- C4 counterexample: the new branch's oldest element has depth 3, the
current branch's depth 7; the fetch the code issues carries the current
branch element's `origin`/`prev_state_*` fields, not the new branch
element's, contradicting the claim that the fetch goes to the new
branch's side. -/
theorem c4_counterexample :
    pduNewOld.depth < pduCurOld.depth ∧
    ([pduNewOld] : Branch).getLast? ≠ ([pduCurOld] : Branch).getLast? ∧
    handle_new_state_step ([pduNewOld], [pduCurOld]) =
      .fetch ⟨pduCurOld.origin, pduCurOld.prev_state_origin,
        pduCurOld.prev_state_id, true⟩ ∧
    handle_new_state_step ([pduNewOld], [pduCurOld]) ≠
      .fetch ⟨pduNewOld.origin, pduNewOld.prev_state_origin,
        pduNewOld.prev_state_id, true⟩ := by
  decide

/-- C4 amended: when the new branch's oldest fetched element has strictly
lower depth than the current branch's, the replication fetch is issued
for the current branch's side — the predecessor of the current branch's
oldest element. -/
theorem c4_deeper_side_fetch (nb cb : Branch) (nl cl : PDU)
    (hn : nb.getLast? = some nl) (hc : cb.getLast? = some cl)
    (hne : nl ≠ cl) (hd : nl.depth < cl.depth) :
    handle_new_state_step (nb, cb) =
      .fetch ⟨cl.origin, cl.prev_state_origin, cl.prev_state_id, true⟩ := by
  have hcbE : cb.isEmpty = false := isEmpty_false_of_getLast? hc
  simp [handle_new_state_step, hn, hc, hne, hcbE, hd]

/-- Witness for the amended C4 at the concrete divergent tree. -/
theorem c4_deeper_side_fetch_witness :
    handle_new_state_step ([pduNewOld], [pduCurOld]) =
      .fetch ⟨pduCurOld.origin, pduCurOld.prev_state_origin,
        pduCurOld.prev_state_id, true⟩ :=
  c4_deeper_side_fetch [pduNewOld] [pduCurOld] pduNewOld pduCurOld
    rfl rfl (by decide) (by decide)

/-- C1 counterexample.  Three concrete refutations of the claim as
stated.  (a) The branches `[pduAB, pduT]` and `[pduA_BC, pduT]` are
distinct, share their oldest element, and the current branch is longer
than 1, yet all three comparators return equal pairs (the hash inputs
concatenate to the same byte string `"abc" + "ts"`), so zero comparators
yield a strict inequality and the final `Conflict resolution failed.`
exception is reached.  (b) For `[pduHi, pduMid, pduT]` against
`[pduLo, pduT]` both the power-level and the chain-length comparators
yield strict inequalities simultaneously, so "exactly one" also fails in
the other direction.  (c) For the distinct converging pair `[pduT]`
against `[pduA_BC, pduT]` the power comparator produces no pair at all
(`ValueError`), another exit the claim does not allow. -/
theorem c1_counterexample :
    (([pduAB, pduT] : Branch) ≠ [pduA_BC, pduT] ∧
      ([pduAB, pduT] : Branch).getLast? = ([pduA_BC, pduT] : Branch).getLast? ∧
      1 < ([pduA_BC, pduT] : Branch).length ∧
      do_power_level_conflict_res [pduAB, pduT] [pduA_BC, pduT] =
        (some 5, some 5) ∧
      do_chain_length_conflict_res [pduAB, pduT] [pduA_BC, pduT] = (2, 2) ∧
      (do_hash_conflict_res [pduAB, pduT] [pduA_BC, pduT]).1 =
        (do_hash_conflict_res [pduAB, pduT] [pduA_BC, pduT]).2 ∧
      handle_new_state_step ([pduAB, pduT], [pduA_BC, pduT]) =
        .done .conflictResFailed) ∧
    ((do_power_level_conflict_res [pduHi, pduMid, pduT] [pduLo, pduT]).1 ≠
        (do_power_level_conflict_res [pduHi, pduMid, pduT] [pduLo, pduT]).2 ∧
      (do_chain_length_conflict_res [pduHi, pduMid, pduT] [pduLo, pduT]).1 ≠
        (do_chain_length_conflict_res [pduHi, pduMid, pduT] [pduLo, pduT]).2 ∧
      ([pduHi, pduMid, pduT] : Branch).getLast? =
        ([pduLo, pduT] : Branch).getLast? ∧
      1 < ([pduLo, pduT] : Branch).length ∧
      ([pduHi, pduMid, pduT] : Branch) ≠ [pduLo, pduT]) ∧
    (([pduT] : Branch) ≠ [pduA_BC, pduT] ∧
      ([pduT] : Branch).getLast? = ([pduA_BC, pduT] : Branch).getLast? ∧
      1 < ([pduA_BC, pduT] : Branch).length ∧
      handle_new_state_step ([pduT], [pduA_BC, pduT]) =
        .done .emptyBranchError) := by
  decide

/-- C1 amended: for branches that share their oldest element, both of
length at least 2, and whose hash-comparator digests differ, the first
comparator producing an unequal pair exists and decides the winner, and
the final `Conflict resolution failed.` exception is unreachable. -/
theorem c1_total_order (nb cb : Branch) (t : PDU)
    (hn : nb.getLast? = some t) (hc : cb.getLast? = some t)
    (hln : 2 ≤ nb.length) (hlc : 2 ≤ cb.length)
    (hh : hashRes nb ≠ hashRes cb) :
    ∃ w, firstUnequalVerdict nb cb = some w ∧
      handle_new_state_step (nb, cb) = .done (.decided w) ∧
      handle_new_state_step (nb, cb) ≠ .done .conflictResFailed := by
  obtain ⟨pN, hpN⟩ := maxPowerLevel_isSome hln
  obtain ⟨pC, hpC⟩ := maxPowerLevel_isSome hlc
  have hv : firstUnequalVerdict nb cb ≠ none := by
    simp only [firstUnequalVerdict, do_power_level_conflict_res,
      do_chain_length_conflict_res, do_hash_conflict_res, hpN, hpC]
    by_cases hpe : pN ≠ pC
    · simp [hpe]
    · by_cases hle : nb.length ≠ cb.length
      · simp [hpe, hle]
      · simp [hpe, hle, hh]
  obtain ⟨w, hw⟩ : ∃ w, firstUnequalVerdict nb cb = some w := by
    cases hfu : firstUnequalVerdict nb cb with
    | none => exact absurd hfu hv
    | some w => exact ⟨w, rfl⟩
  refine ⟨w, hw, ?_, ?_⟩
  · rw [step_tiebreak_eq nb cb t hn hc hln hlc, hw]
  · rw [step_tiebreak_eq nb cb t hn hc hln hlc, hw]
    simp

/-- Witness for the amended C1 at concrete branches with distinct
digests. -/
theorem c1_total_order_witness :
    ∃ w, firstUnequalVerdict [pduP1, pduT] [pduP2, pduT] = some w ∧
      handle_new_state_step ([pduP1, pduT], [pduP2, pduT]) =
        .done (.decided w) ∧
      handle_new_state_step ([pduP1, pduT], [pduP2, pduT]) ≠
        .done .conflictResFailed :=
  c1_total_order [pduP1, pduT] [pduP2, pduT] pduT (by decide) (by decide)
    (by decide) (by decide) (by decide)

/-- C2 counterexample: the branches `[pduT]` and `[pduA_BC, pduT]`
converge with a current branch of length 2 (> 1); the claim requires the
verdict of the first comparator producing an unequal pair (here the
chain-length comparator: the power comparator produces no pair, Python's
`max` raising `ValueError` on the empty `new_branch[:-1]`), i.e. a
return of False, but the pass exits with the `ValueError` instead of
returning either boolean. -/
theorem c2_counterexample :
    ([pduT] : Branch).getLast? = ([pduA_BC, pduT] : Branch).getLast? ∧
    1 < ([pduA_BC, pduT] : Branch).length ∧
    (do_power_level_conflict_res [pduT] [pduA_BC, pduT]).1 = none ∧
    do_chain_length_conflict_res [pduT] [pduA_BC, pduT] = (1, 2) ∧
    handle_new_state_step ([pduT], [pduA_BC, pduT]) =
      .done .emptyBranchError ∧
    handle_new_state_step ([pduT], [pduA_BC, pduT]) ≠
      .done (.decided false) ∧
    handle_new_state_step ([pduT], [pduA_BC, pduT]) ≠
      .done (.decided true) := by
  decide

/-- C2 amended: when the branches converge and both the current and the
new branch have length greater than 1, the pass returns True iff the
first comparator producing an unequal pair scored the new branch
strictly greater, False iff strictly smaller, and raises the final
exception iff no comparator produces an unequal pair; an equal
comparator never decides. -/
theorem c2_tiebreak_pipeline (nb cb : Branch) (t : PDU)
    (hn : nb.getLast? = some t) (hc : cb.getLast? = some t)
    (hln : 2 ≤ nb.length) (hlc : 2 ≤ cb.length) :
    (handle_new_state_step (nb, cb) = .done (.decided true) ↔
      firstUnequalVerdict nb cb = some true) ∧
    (handle_new_state_step (nb, cb) = .done (.decided false) ↔
      firstUnequalVerdict nb cb = some false) ∧
    (handle_new_state_step (nb, cb) = .done .conflictResFailed ↔
      firstUnequalVerdict nb cb = none) := by
  rw [step_tiebreak_eq nb cb t hn hc hln hlc]
  cases hfu : firstUnequalVerdict nb cb with
  | none => simp
  | some w => cases w <;> simp

/-- Witness for the amended C2 at concrete branches of lengths 3 and 2. -/
theorem c2_tiebreak_pipeline_witness :
    (handle_new_state_step ([pduHi, pduMid, pduT], [pduLo, pduT]) =
        .done (.decided true) ↔
      firstUnequalVerdict [pduHi, pduMid, pduT] [pduLo, pduT] = some true) ∧
    (handle_new_state_step ([pduHi, pduMid, pduT], [pduLo, pduT]) =
        .done (.decided false) ↔
      firstUnequalVerdict [pduHi, pduMid, pduT] [pduLo, pduT] = some false) ∧
    (handle_new_state_step ([pduHi, pduMid, pduT], [pduLo, pduT]) =
        .done .conflictResFailed ↔
      firstUnequalVerdict [pduHi, pduMid, pduT] [pduLo, pduT] = none) :=
  c2_tiebreak_pipeline [pduHi, pduMid, pduT] [pduLo, pduT] pduT
    (by decide) (by decide) (by decide) (by decide)

/-- C5: the recursive gap-filling terminates.  First part: a chain of
`N` successive divergent-branch passes (all fetches succeeding) resolves
with the terminal outcome of pass `N`, after exactly `N` fetches.
Second part: if every fetch strictly grows the combined size of the two
branches persistence returns next, and that size is bounded (by twice
the room's total event count), the run completes within the bound. -/
theorem c5_gap_fill_termination (trees : Nat → StateTree)
    (fetches : Nat → Except Unit Unit) (hfetch : ∀ k, fetches k = .ok ()) :
    (∀ N, (∀ i, i < N → isFetchStep (trees i) = true) →
      isFetchStep (trees N) = false →
      (handle_new_state_run trees fetches 0 (N + 1)).1 =
          doneOutcome (trees N) ∧
        (handle_new_state_run trees fetches 0 (N + 1)).2.length = N ∧
        (doneOutcome (trees N)).isSome = true) ∧
    (∀ B, (∀ k, isFetchStep (trees k) = true →
        treeSize (trees k) < treeSize (trees (k + 1))) →
      (∀ k, treeSize (trees k) ≤ B) →
      ((handle_new_state_run trees fetches 0 (B + 1)).1).isSome = true) := by
  constructor
  · intro N h1 h2
    obtain ⟨r1, r2⟩ := run_done_at trees fetches N 0
      (by simpa using h1) (fun i _ => hfetch _) (by simpa using h2)
    rw [Nat.zero_add] at r1
    exact ⟨r1, r2, doneOutcome_isSome h2⟩
  · intro B hgrow hbound
    have hex : ∃ m, m ≤ B ∧ isFetchStep (trees m) = false := by
      by_contra hco
      push_neg at hco
      have hall : ∀ m, m ≤ B → isFetchStep (trees m) = true := by
        intro m hm
        have h := hco m hm
        revert h
        cases isFetchStep (trees m) <;> simp
      have hsz : ∀ m, m ≤ B → m + 2 ≤ treeSize (trees m) := by
        intro m
        induction m with
        | zero =>
          intro h0
          simpa using fetchStep_size (hall 0 h0)
        | succ n ihn =>
          intro hsucc
          have hn : n ≤ B := by omega
          have h1 := ihn hn
          have h2 := hgrow n (hall n hn)
          omega
      have hB := hsz B le_rfl
      have := hbound B
      omega
    obtain ⟨m, hm, hmf⟩ := hex
    exact run_isSome_of_done trees fetches hfetch (B + 1) 0
      ⟨m, by omega, by simpa using hmf⟩

/-- Witness for C5 at a constant convergence-free oracle (the tree is
terminal at round 0). -/
theorem c5_gap_fill_termination_witness :
    ((handle_new_state_run (fun _ => ([pduP1], ([] : Branch)))
        (fun _ => .ok ()) 0 (1 + 1)).1).isSome = true :=
  (c5_gap_fill_termination (fun _ => ([pduP1], [])) (fun _ => .ok ())
      (fun _ => rfl)).2 1
    (fun k hk => absurd hk (by decide))
    (fun _ => by decide)

/-- C8: on every exit path of `handle_new_event` and `handle_new_state`
— success, admission-callback rejection, persistence failure,
replication-fetch failure (a resolver exception), or the fatal tiebreak
exception — the `finally` block completes the lock deferred, so no
failure leaves the key locked. -/
theorem c8_lock_always_released :
    (∀ (resolver : Except Unit Bool) (hasCallback : Bool)
        (cbResult : Except Unit Unit),
      (handle_new_state resolver hasCallback cbResult).lockReleased = true) ∧
    (∀ (serverName : String)
        (latest : Except Unit (List (String × String × Nat)))
        (currentState : Except Unit (Option CurrentState))
        (cbResult updResult : Except Unit Unit) (event : Event),
      (handle_new_event serverName latest currentState cbResult
          updResult event).lockReleased = true) := by
  constructor
  · intro resolver hasCallback cbResult
    cases resolver with
    | error e => rfl
    | ok b =>
      by_cases hbc : (b && hasCallback) = true
      · cases cbResult <;> simp [handle_new_state, hbc]
      · simp [handle_new_state, hbc]
  · intro sn latest cur cb upd ev
    cases latest with
    | error e => rfl
    | ok results =>
      cases cur with
      | error e => rfl
      | ok oc =>
        cases oc with
        | none => rfl
        | some cs =>
          cases cb with
          | error e => rfl
          | ok u =>
            cases upd with
            | error e => rfl
            | ok u2 => rfl

/-- C9: the resolver run's only external effects are replication
fetches — it never calls the persistence service's
`update_current_state` — and `handle_new_state`'s callback fires exactly
when the verdict is True and a callback was supplied. -/
theorem c9_no_state_mutation :
    (∀ (trees : Nat → StateTree) (fetches : Nat → Except Unit Unit)
        (k fuel : Nat) (e : Effect),
      e ∈ (handle_new_state_run trees fetches k fuel).2 →
      ∃ r, e = .fetchPdu r) ∧
    (∀ (resolver : Except Unit Bool) (hasCallback : Bool)
        (cbResult : Except Unit Unit),
      (handle_new_state resolver hasCallback cbResult).callbackInvoked
          = true ↔
        (resolver = .ok true ∧ hasCallback = true)) := by
  constructor
  · intro trees fetches k fuel
    induction fuel generalizing k with
    | zero =>
      intro e he
      simp [handle_new_state_run] at he
    | succ f ih =>
      intro e he
      cases hs : handle_new_state_step (trees k) with
      | done o =>
        rw [run_step_done trees fetches k f hs] at he
        simp at he
      | fetch req =>
        cases hf : fetches k with
        | error er =>
          rw [run_step_fetch_err trees fetches k f hs hf] at he
          simp at he
          exact ⟨req, he⟩
        | ok u =>
          rw [run_step_fetch trees fetches k f hs hf] at he
          simp only [List.mem_cons] at he
          rcases he with he | he
          · exact ⟨req, he⟩
          · exact ih (k + 1) e he
  · intro resolver hasCallback cbResult
    cases resolver with
    | error e => simp [handle_new_state]
    | ok b =>
      by_cases hbc : (b && hasCallback) = true
      · rw [Bool.and_eq_true] at hbc
        cases cbResult <;>
          simp [handle_new_state, hbc.1, hbc.2]
      · rw [Bool.and_eq_true] at hbc
        simp only [handle_new_state]
        rw [if_neg (by rwa [Bool.and_eq_true])]
        simp only [Except.ok.injEq]
        constructor
        · intro h
          cases h
        · intro ⟨h1, h2⟩
          exact absurd ⟨h1, h2⟩ hbc

/-- Witness for C9: the fetch trace of a concrete divergent run consists
of fetch effects only. -/
theorem c9_no_state_mutation_witness :
    ∃ r, (Effect.fetchPdu ⟨pduCurOld.origin, pduCurOld.prev_state_origin,
        pduCurOld.prev_state_id, true⟩) = Effect.fetchPdu r :=
  c9_no_state_mutation.1 (fun _ => ([pduNewOld], [pduCurOld]))
    (fun _ => .ok ()) 0 1
    (Effect.fetchPdu ⟨pduCurOld.origin, pduCurOld.prev_state_origin,
      pduCurOld.prev_state_id, true⟩)
    (by decide)

/-- C10: `handle_new_event` dereferences the CurrentState record it
reads; when the slot has none (`get_current_state` returns `None`), the
call fails before invoking the admission callback and issues no
persistence update; success requires that a CurrentState exists, whose
`pdu_id`/`origin` are copied into the draft's `prev_state_*` fields. -/
theorem c10_requires_current_state :
    (∀ (serverName : String)
        (latest : Except Unit (List (String × String × Nat)))
        (cbResult updResult : Except Unit Unit) (event : Event),
      (handle_new_event serverName latest (.ok none) cbResult
          updResult event).result = .error () ∧
      (handle_new_event serverName latest (.ok none) cbResult
          updResult event).effects = []) ∧
    (∀ (serverName : String)
        (latest : Except Unit (List (String × String × Nat)))
        (currentState : Except Unit (Option CurrentState))
        (cbResult updResult : Except Unit Unit) (event : Event),
      (handle_new_event serverName latest currentState cbResult
          updResult event).result = .ok () →
      ∃ cs, currentState = .ok (some cs)) ∧
    (∀ (serverName : String)
        (results : List (String × String × Nat)) (cs : CurrentState)
        (cbResult updResult : Except Unit Unit) (event : Event),
      (handle_new_event serverName (.ok results) (.ok (some cs)) cbResult
          updResult event).event.prev_state_id = some cs.pdu_id ∧
      (handle_new_event serverName (.ok results) (.ok (some cs)) cbResult
          updResult event).event.prev_state_origin = some cs.origin) := by
  refine ⟨?_, ?_, ?_⟩
  · intro sn latest cb upd ev
    cases latest with
    | error e => exact ⟨rfl, rfl⟩
    | ok results => exact ⟨rfl, rfl⟩
  · intro sn latest cur cb upd ev h
    cases latest with
    | error e => simp [handle_new_event] at h
    | ok results =>
      cases cur with
      | error e => simp [handle_new_event] at h
      | ok oc =>
        cases oc with
        | none => simp [handle_new_event] at h
        | some cs => exact ⟨cs, rfl⟩
  · intro sn results cs cb upd ev
    cases cb with
    | error e => exact ⟨rfl, rfl⟩
    | ok u =>
      cases upd with
      | error e => exact ⟨rfl, rfl⟩
      | ok u2 => exact ⟨rfl, rfl⟩

/-- Witness for C10: a successful call implies the CurrentState oracle
returned a record. -/
theorem c10_requires_current_state_witness :
    ∃ cs, (Except.ok (some (⟨"pid", "porig"⟩ : CurrentState)) :
        Except Unit (Option CurrentState)) = .ok (some cs) :=
  c10_requires_current_state.2.1 "sv" (.ok [])
    (.ok (some ⟨"pid", "porig"⟩)) (.ok ()) (.ok ())
    ⟨"e1", "r", "ty", "k", [], 0, none, none⟩ rfl

end SynapseState
